import Mathlib

/-
Verification of the MINI_DOOM engine (src/minidoom.c) against its
natural-language specification.

Modelling conventions (shallow embedding):
- C `float` values are modelled as exact rationals (ℚ): the properties under
  study are order/arithmetic properties that are independent of rounding.
- `sqrtf(v) < r` with `v ≥ 0`, `r > 0` is transcribed as `v < r * r`
  (square root is strictly monotone on nonnegative reals, so this is the
  exact real-number content of the comparison).  Whenever the *value* of a
  square root is needed (enemy movement normalisation), the embedding is
  parametrised by an abstract function `rsqrt : ℚ → ℚ`; theorems quantify
  over it, so they hold in particular for the true square root.
- `sin`/`cos` of the player's angle enter only as the pair of direction
  components; functions that use them take those components (`sinA`, `cosA`)
  as parameters.
- A C cast `(int)q` (truncation toward zero) is modelled by `truncZ`.
- Fixed-size global arrays (`g_sprites`, `g_projectiles`, `g_map`) are
  modelled as lists; C loops over them become structural recursion in the
  same iteration order.
- `clock()` values are passed in as a parameter `now`; `CLOCKS_PER_SEC` as a
  parameter `cps` (all clock() calls inside one tick are the same instant).
-/

/-- Truncation toward zero of a rational, the semantics of the C cast
`(int)` applied to a `float`. -/
def truncZ (q : ℚ) : ℤ := if 0 ≤ q then ⌊q⌋ else -⌊-q⌋

/-- Squared Euclidean distance between `(ax, ay)` and `(bx, bu)`; the source
computes `sqrtf` of this quantity and only ever compares or normalises it. -/
def dist2 (ax ay bx bu : ℚ) : ℚ := (ax - bx) * (ax - bx) + (ay - bu) * (ay - bu)

/-- The 20x20 tile grid `g_map` from minidoom.c, row by row. -/
def g_map : List (List Char) :=
  [ "####################".toList,
    "#.................C#".toList,
    "#..########....#...#".toList,
    "#..#.......#...#...#".toList,
    "#..#...C...#...#...#".toList,
    "#..#...#...#...#...#".toList,
    "#..#.......#...#...#".toList,
    "#..########....#...#".toList,
    "#........E.........#".toList,
    "#....#######.......#".toList,
    "#....#.....#.......#".toList,
    "#....#.....#.......#".toList,
    "#....#.....#.......#".toList,
    "#....#######.......#".toList,
    "#..................#".toList,
    "#........C.........#".toList,
    "#...########.......#".toList,
    "#...#......#.......#".toList,
    "#E..#......#......E#".toList,
    "####################".toList ]

/-- Character of the map cell at row `my`, column `mx` (`g_map[my][mx]`).
Every read in the source is guarded by a bounds check, so the default value
returned out of range is never observable. -/
def mapCharZ (my mx : ℤ) : Char := (g_map.getD my.toNat []).getD mx.toNat ' '

/-- The out-of-grid-or-wall test used identically by player collision
(`processInput`), enemy movement and projectile flight (`mapX < 0 ||
mapX >= MAP_WIDTH || mapY < 0 || mapY >= MAP_HEIGHT || g_map[mapY][mapX]
== '#'`). -/
def solidAt (mx my : ℤ) : Prop :=
  mx < 0 ∨ 20 ≤ mx ∨ my < 0 ∨ 20 ≤ my ∨ mapCharZ my mx = '#'

instance (mx my : ℤ) : Decidable (solidAt mx my) := by
  unfold solidAt; infer_instance

/-- Result of the DDA cast for one screen column: the axis of the last step
(`side`), the step signs, the cell where the ray stopped, whether it stopped
on a `'#'` cell inside the grid (`inGrid`) or ran out of bounds, and the
value `z` finally stored into `g_zBuffer` for that column. -/
structure RayHit where
  side : ℕ
  stepX : ℤ
  stepY : ℤ
  mapX : ℤ
  mapY : ℤ
  inGrid : Bool
  z : ℚ

/-- The DDA loop of `renderGame` (lines 331-350).  `pw` threads the local
`perpWallDist`, which starts at `MAX_RENDER_DISTANCE` and is (re)assigned
only on the out-of-bounds branch.  Fuel makes the `while` loop structural;
`none` means the fuel ran out before the loop finished. -/
def ddaLoop (deltaDistX deltaDistY : ℚ) (stepX stepY : ℤ) :
    ℕ → ℚ → ℚ → ℤ → ℤ → ℚ → Option (ℕ × ℤ × ℤ × Bool × ℚ)
  | 0, _, _, _, _, _ => none
  | fuel + 1, sideDistX, sideDistY, mapX, mapY, pw =>
    if sideDistX < sideDistY then
      let sideDistX1 := sideDistX + deltaDistX
      let mapX1 := mapX + stepX
      if mapX1 < 0 ∨ 20 ≤ mapX1 ∨ mapY < 0 ∨ 20 ≤ mapY then
        some (0, mapX1, mapY, false, 15)
      else if mapCharZ mapY mapX1 = '#' then
        some (0, mapX1, mapY, true, pw)
      else
        ddaLoop deltaDistX deltaDistY stepX stepY fuel sideDistX1 sideDistY mapX1 mapY pw
    else
      let sideDistY1 := sideDistY + deltaDistY
      let mapY1 := mapY + stepY
      if mapX < 0 ∨ 20 ≤ mapX ∨ mapY1 < 0 ∨ 20 ≤ mapY1 then
        some (1, mapX, mapY1, false, 15)
      else if mapCharZ mapY1 mapX = '#' then
        some (1, mapX, mapY1, true, pw)
      else
        ddaLoop deltaDistX deltaDistY stepX stepY fuel sideDistX sideDistY1 mapX mapY1 pw

/-- Lines 352-366 of the source applied to the DDA outcome
`(side, mapX, mapY, inGrid, perpWallDist)`: the `perpWallDist ==
MAX_RENDER_DISTANCE` test guarding the perpendicular formula of lines
356-357, then the clamps to `[0.01, 15]`, producing the value stored in
`g_zBuffer`. -/
def castPost (posX posY rayDirX rayDirY : ℚ) (stepX stepY : ℤ)
    (r : ℕ × ℤ × ℤ × Bool × ℚ) : RayHit :=
  let pw1 : ℚ :=
    if r.2.2.2.2 = 15 then r.2.2.2.2
    else if r.1 = 0 then (r.2.1 - posX + (1 - stepX) / 2) / rayDirX
    else (r.2.2.1 - posY + (1 - stepY) / 2) / rayDirY
  let pw2 : ℚ := if pw1 < 1 / 100 then 1 / 100 else pw1
  let pw3 : ℚ := if pw2 > 15 then 15 else pw2
  ⟨r.1, stepX, stepY, r.2.1, r.2.2.1, r.2.2.2.1, pw3⟩

/-- One column of the wall raycast of `renderGame` (lines 293-366), from the
ray direction down to the value stored in `g_zBuffer[x_col]`.  Mirrors the
source exactly, including: the swapped `sideDistY` initialisation relative
to the standard DDA; `perpWallDist` initialised to `MAX_RENDER_DISTANCE`
(15, re-assigned only on the out-of-bounds branch of the loop); and the
final test and clamps in `castPost`. -/
def castColumn (fuel : ℕ) (posX posY rayDirX rayDirY : ℚ) : Option RayHit :=
  let mapX : ℤ := truncZ posX
  let mapY : ℤ := truncZ posY
  let deltaDistX : ℚ := if rayDirX = 0 then 10 ^ 30 else |1 / rayDirX|
  let deltaDistY : ℚ := if rayDirY = 0 then 10 ^ 30 else |1 / rayDirY|
  let stepX : ℤ := if rayDirX < 0 then -1 else 1
  let sideDistX : ℚ :=
    if rayDirX < 0 then (posX - mapX) * deltaDistX else (mapX + 1 - posX) * deltaDistX
  let stepY : ℤ := if rayDirY < 0 then -1 else 1
  let sideDistY : ℚ :=
    if rayDirY < 0 then (mapY + 1 - posY) * deltaDistY else (posY - mapY) * deltaDistY
  (ddaLoop deltaDistX deltaDistY stepX stepY fuel sideDistX sideDistY mapX mapY 15).map
    (castPost posX posY rayDirX rayDirY stepX stepY)

/-- The perpendicular-distance formula of lines 356-357 of the source
(`(cellBoundary - playerCoord + (1 - step)/2) / rayDirComponent`), as a
standalone function so that its value at a hit can be compared with what the
code actually stores. -/
def deadPerp (side : ℕ) (stepX stepY mapX mapY : ℤ) (posX posY rayDirX rayDirY : ℚ) : ℚ :=
  if side = 0 then (mapX - posX + (1 - stepX) / 2) / rayDirX
  else (mapY - posY + (1 - stepY) / 2) / rayDirY

/-- The ANSI colour strings used by sprites (`ANSI_COLOR_YELLOW` /
`ANSI_COLOR_RED`). -/
def ansiYellow : String := "\x1b[33m"

/-- Red foreground colour, used for enemies. -/
def ansiRed : String := "\x1b[31m"

/-- The `Player` struct of the source. -/
structure PlayerS where
  x : ℚ
  y : ℚ
  angle : ℚ
  health : ℤ
  score : ℤ
  moveSpeed : ℚ
  rotSpeed : ℚ

/-- The `Sprite` struct of the source.  `dist2ToPlayer` models the field
`distToPlayer`, storing the *squared* distance (the field is only ever
compared against other values of itself, and squaring is strictly monotone
on nonnegative reals, so the ordering is identical); the `-1` sentinel for
inactive sprites compares below every squared distance exactly as it
compares below every `sqrtf` value. -/
structure Sprite where
  x : ℚ
  y : ℚ
  character : Char
  color : String
  isActive : Bool
  dist2ToPlayer : ℚ
  isEnemy : Bool
  health : ℤ
  attackCooldown : ℚ
  lastAttackTime : ℚ

/-- The `Projectile` struct of the source. -/
structure Projectile where
  x : ℚ
  y : ℚ
  dirX : ℚ
  dirY : ℚ
  speed : ℚ
  isActive : Bool

/-- The `GameState` enum of the source. -/
inductive GameMode
  | menu
  | playing
  | gameOver
  | win
deriving DecidableEq

/-- The mutable globals of the game gathered into one record: `g_player`,
`g_sprites` (in slot order), `g_projectiles` (in slot order) and
`g_currentState`. -/
structure GState where
  player : PlayerS
  sprites : List Sprite
  projectiles : List Projectile
  mode : GameMode

/-- The slot scan of `fireProjectile` (lines 224-234): the first inactive
slot, in order, receives a projectile at `(px, py)` with direction
`(sinA, cosA) = (sin angle, cos angle)` and speed 10; if every slot is
active the list is returned unchanged (the C loop falls through and the
function returns without effect). -/
def fireList (px py sinA cosA : ℚ) : List Projectile → List Projectile
  | [] => []
  | p :: rest =>
    if p.isActive then p :: fireList px py sinA cosA rest
    else ⟨px, py, sinA, cosA, 10, true⟩ :: rest

/-- The `fireProjectile` function of the source, with `sinA`/`cosA` the
values of `sin(g_player.angle)` / `cos(g_player.angle)`. -/
def fireProjectile (sinA cosA : ℚ) (s : GState) : GState :=
  { s with projectiles := fireList s.player.x s.player.y sinA cosA s.projectiles }

/-- The collision resolution of `processInput` (lines 699-716): `x` moves to
`newX` only if the cell at column `(int)newX`, row `(int)y` is inside the
grid and not `'#'`; `y` moves to `newY` only if the cell at column `(int)x`
(the original, unmoved x), row `(int)newY` is inside the grid and not `'#'`. -/
def resolveMove (x y newX newY : ℚ) : ℚ × ℚ :=
  let currentMapX : ℤ := truncZ x
  let currentMapY : ℤ := truncZ y
  let targetMapX : ℤ := truncZ newX
  let targetMapY : ℤ := truncZ newY
  let x1 : ℚ :=
    if 0 ≤ targetMapX ∧ targetMapX < 20 ∧ 0 ≤ currentMapY ∧ currentMapY < 20 ∧
        mapCharZ currentMapY targetMapX ≠ '#' then newX else x
  let y1 : ℚ :=
    if 0 ≤ currentMapX ∧ currentMapX < 20 ∧ 0 ≤ targetMapY ∧ targetMapY < 20 ∧
        mapCharZ targetMapY currentMapX ≠ '#' then newY else y
  (x1, y1)

/-- The `GAME_STATE_PLAYING` branch of `processInput` (lines 645-722).
`sinA`/`cosA` are the values of `sin`/`cos` at the player's current angle
(the single key processed this tick uses the pre-tick angle for movement and
firing, as in the source); `wrap` is the normalisation
`fmodf(·, 2π)`-then-fix-sign of lines 719-720, kept abstract because 2π is
irrational.  Movement resolution and angle normalisation run for every
input, as in the source. -/
def processInputPlaying (wrap : ℚ → ℚ) (input : Char) (dt sinA cosA : ℚ) (s : GState) :
    GState :=
  if s.player.health ≤ 0 then { s with mode := .gameOver }
  else
    let p := s.player
    let moveAmount := p.moveSpeed * dt
    let rotAmount := p.rotSpeed * dt
    let nxy : ℚ × ℚ :=
      if input = 'w' ∨ input = 'W' then (p.x + sinA * moveAmount, p.y + cosA * moveAmount)
      else if input = 's' ∨ input = 'S' then (p.x - sinA * moveAmount, p.y - cosA * moveAmount)
      else if input = 'a' ∨ input = 'A' then (p.x + cosA * moveAmount, p.y - sinA * moveAmount)
      else if input = 'd' ∨ input = 'D' then (p.x - cosA * moveAmount, p.y + sinA * moveAmount)
      else (p.x, p.y)
    let angle1 : ℚ :=
      if input = 'q' ∨ input = 'Q' then p.angle - rotAmount
      else if input = 'e' ∨ input = 'E' then p.angle + rotAmount
      else p.angle
    let projectiles1 : List Projectile :=
      if input = 'f' ∨ input = 'F' then fireList p.x p.y sinA cosA s.projectiles
      else s.projectiles
    let mode1 : GameMode := if input = 'x' ∨ input = 'X' then .menu else s.mode
    let xy := resolveMove p.x p.y nxy.1 nxy.2
    { s with
      player := { p with x := xy.1, y := xy.2, angle := wrap angle1 },
      projectiles := projectiles1,
      mode := mode1 }

/-- One iteration of the `updateSprites` loop (lines 772-815) for the sprite
`sp`, threading the player's health and score.  `sqrtf(d) < 0.7f` is
transcribed as `d < 0.49`, `dist > 1.5f` as `d > 2.25`, `dist < 1.5f` as
`d < 2.25` (squared comparisons, exact).  The enemy displacement divides by
`rsqrt d2`, the abstract square root; when the destination cell is solid the
source subtracts the displacement back, which in exact arithmetic restores
the previous position.  The attack-cooldown test
`(clock() - lastAttackTime) / CLOCKS_PER_SEC > attackCooldown` uses the tick
instant `now` and constant `cps`. -/
def stepSprite (rsqrt : ℚ → ℚ) (cps now dt px py : ℚ) (sp : Sprite) (health score : ℤ) :
    Sprite × ℤ × ℤ :=
  if sp.isActive = false then (sp, health, score)
  else if sp.isEnemy = false then
    if dist2 px py sp.x sp.y < 49/100 then
      ({ sp with isActive := false }, health, score + 10)
    else (sp, health, score)
  else
    let dx := px - sp.x
    let dy := py - sp.y
    let d2 := dx * dx + dy * dy
    let sp1 : Sprite :=
      if d2 > 9/4 then
        let moveAmount := 1 * dt
        let dist := rsqrt d2
        let nx := sp.x + dx / dist * moveAmount
        let ny := sp.y + dy / dist * moveAmount
        if solidAt (truncZ nx) (truncZ ny) then sp
        else { sp with x := nx, y := ny }
      else sp
    if d2 < 9/4 ∧ (now - sp.lastAttackTime) / cps > sp.attackCooldown then
      ({ sp1 with lastAttackTime := now }, health - 10, score)
    else (sp1, health, score)

/-- The `updateSprites` loop over the sprite array in slot order, threading
player health and score. -/
def updateSpritesList (rsqrt : ℚ → ℚ) (cps now dt px py : ℚ) :
    List Sprite → ℤ → ℤ → List Sprite × ℤ × ℤ
  | [], health, score => ([], health, score)
  | sp :: rest, health, score =>
    let r1 := stepSprite rsqrt cps now dt px py sp health score
    let r2 := updateSpritesList rsqrt cps now dt px py rest r1.2.1 r1.2.2
    (r1.1 :: r2.1, r2.2.1, r2.2.2)

/-- The `updateSprites` function of the source acting on the game state. -/
def updateSprites (rsqrt : ℚ → ℚ) (cps now dt : ℚ) (s : GState) : GState :=
  let r := updateSpritesList rsqrt cps now dt s.player.x s.player.y s.sprites
    s.player.health s.player.score
  { s with
    sprites := r.1,
    player := { s.player with health := r.2.1, score := r.2.2 } }

/-- The enemy-collision scan of `updateProjectiles` (lines 834-848) for a
projectile at `(projX, projY)`: the first active enemy within distance 0.7
(squared: 0.49) takes 25 damage; if its health drops to 0 or below it is
deactivated and the score increases by 50; the loop `break`s after the first
hit.  Returns the updated sprite list, the updated score, and whether a hit
happened. -/
def hitEnemyScan (projX projY : ℚ) : List Sprite → ℤ → List Sprite × ℤ × Bool
  | [], score => ([], score, false)
  | sp :: rest, score =>
    if sp.isActive = true ∧ sp.isEnemy = true ∧ dist2 projX projY sp.x sp.y < 49/100 then
      let h := sp.health - 25
      ({ sp with health := h, isActive := if h ≤ 0 then false else sp.isActive } :: rest,
       (if h ≤ 0 then score + 50 else score), true)
    else
      let r := hitEnemyScan projX projY rest score
      (sp :: r.1, r.2.1, r.2.2)

/-- One iteration of the `updateProjectiles` loop (lines 819-850) for the
projectile `p`: advance by `dir * speed * dt`, deactivate on a solid cell,
then run the enemy scan at the advanced position (the scan runs regardless
of the wall-test outcome, exactly as in the source, where the wall branch
does not `continue`). -/
def stepProjectile (dt : ℚ) (p : Projectile) (sprites : List Sprite) (score : ℤ) :
    Projectile × List Sprite × ℤ :=
  if p.isActive = false then (p, sprites, score)
  else
    let nx := p.x + p.dirX * p.speed * dt
    let ny := p.y + p.dirY * p.speed * dt
    let wallHit : Bool := decide (solidAt (truncZ nx) (truncZ ny))
    let scan := hitEnemyScan nx ny sprites score
    let active1 : Bool := if wallHit then false else p.isActive
    let active2 : Bool := if scan.2.2 then false else active1
    ({ p with x := nx, y := ny, isActive := active2 }, scan.1, scan.2.1)

/-- The `updateProjectiles` loop over the pool in slot order, threading the
sprite list and the score. -/
def updateProjectilesList (dt : ℚ) :
    List Projectile → List Sprite → ℤ → List Projectile × List Sprite × ℤ
  | [], sprites, score => ([], sprites, score)
  | p :: rest, sprites, score =>
    let r1 := stepProjectile dt p sprites score
    let r2 := updateProjectilesList dt rest r1.2.1 r1.2.2
    (r1.1 :: r2.1, r2.2.1, r2.2.2)

/-- The `updateProjectiles` function of the source acting on the game state. -/
def updateProjectiles (dt : ℚ) (s : GState) : GState :=
  let r := updateProjectilesList dt s.projectiles s.sprites s.player.score
  { s with
    projectiles := r.1,
    sprites := r.2.1,
    player := { s.player with score := r.2.2 } }

/-- The `activeCollectibles` count of `updateGame` (lines 749-754). -/
def activeCollectibles : List Sprite → ℕ
  | [] => 0
  | sp :: rest =>
    (if sp.isActive = true ∧ sp.isEnemy = false then 1 else 0) + activeCollectibles rest

/-- The `enemiesAlive` flag of `updateGame` (lines 756-762). -/
def enemiesAlive : List Sprite → Bool
  | [] => false
  | sp :: rest => if sp.isActive = true ∧ sp.isEnemy = true then true else enemiesAlive rest

/-- The `updateGame` function (lines 737-769): in the `PLAYING` state run
`updateSprites` then `updateProjectiles`, then check game-over
(health ≤ 0), then the win condition (no active collectible and no active
enemy); otherwise do nothing. -/
def updateGame (rsqrt : ℚ → ℚ) (cps now dt : ℚ) (s : GState) : GState :=
  if s.mode = .playing then
    let s1 := updateSprites rsqrt cps now dt s
    let s2 := updateProjectiles dt s1
    if s2.player.health ≤ 0 then { s2 with mode := .gameOver }
    else if activeCollectibles s2.sprites = 0 ∧ enemiesAlive s2.sprites = false then
      { s2 with mode := .win }
    else s2
  else s

/-- The glyph a sprite is drawn with (lines 497-502 of `renderGame`): an
enemy shows `'E'` while `health > 30` and `'e'` once damaged to 30 or
below; a collectible shows its own character. -/
def spriteGlyph (sp : Sprite) : Char :=
  if sp.isEnemy = true then (if sp.health > 30 then 'E' else 'e') else sp.character

/-- The per-sprite attack condition of `updateSprites` (line 808): an active
enemy within distance 1.5 of the player (squared: 2.25) whose cooldown has
elapsed. -/
def attackCond (cps now px py : ℚ) (sp : Sprite) : Prop :=
  sp.isActive = true ∧ sp.isEnemy = true ∧ dist2 px py sp.x sp.y < 9/4 ∧
    (now - sp.lastAttackTime) / cps > sp.attackCooldown

instance (cps now px py : ℚ) (sp : Sprite) : Decidable (attackCond cps now px py sp) := by
  unfold attackCond; infer_instance

/-- Number of sprites in the list that attack the player this tick. -/
def countAttackers (cps now px py : ℚ) : List Sprite → ℕ
  | [] => 0
  | sp :: rest =>
    (if attackCond cps now px py sp then 1 else 0) + countAttackers cps now px py rest

/-- Number of active enemies in the list. -/
def countActiveEnemies : List Sprite → ℕ
  | [] => 0
  | sp :: rest =>
    (if sp.isActive = true ∧ sp.isEnemy = true then 1 else 0) + countActiveEnemies rest

/-- Lines 442-448 of `renderGame`: before sorting, every active sprite gets
its distance to the player recomputed and every inactive sprite gets the
sentinel `-1`. -/
def computeDistances (px py : ℚ) (l : List Sprite) : List Sprite :=
  l.map fun sp =>
    if sp.isActive = true then { sp with dist2ToPlayer := dist2 px py sp.x sp.y }
    else { sp with dist2ToPlayer := -1 }

/-- Insertion step of the model of `qsort(..., compareSprites)`: descending
order of the stored distance. -/
def insertDesc (sp : Sprite) : List Sprite → List Sprite
  | [] => [sp]
  | b :: rest =>
    if b.dist2ToPlayer < sp.dist2ToPlayer then sp :: b :: rest else b :: insertDesc sp rest

/-- Model of the `qsort` call at line 451 with comparator `compareSprites`
(descending `distToPlayer`).  C's `qsort` is an unspecified comparator sort;
this insertion sort is one comparator-correct refinement of it.  The
theorems below use only facts every comparator-correct sort shares:
the output is a permutation of the input ordered descendingly, and on
distinct keys the output is uniquely determined. -/
def sortSprites : List Sprite → List Sprite
  | [] => []
  | sp :: rest => insertDesc sp (sortSprites rest)

/-- Camera-space lateral offset (`transformX` of lines 464 / 518) of world
point `(wx, wy)` for a player at `(px, py)` with direction sines/cosines
`sinA`/`cosA`. -/
def camLateral (sinA cosA px py wx wy : ℚ) : ℚ :=
  (wx - px) * cosA + (wy - py) * sinA

/-- Camera-space depth (`transformY` of lines 465 / 519). -/
def camDepth (sinA cosA px py wx wy : ℚ) : ℚ :=
  -(wx - px) * sinA + (wy - py) * cosA

/-- A text frame: map from (row, column) to (glyph, colour), modelling the
pair `g_screenBuffer`/`g_colorBuffer` (written together under the same
guards in the source). -/
def Buf : Type := ℕ → ℕ → Char × String

/-- Write one cell of the frame. -/
def writeCell (buf : Buf) (row col : ℕ) (g : Char × String) : Buf :=
  fun r c => if r = row ∧ c = col then g else buf r c

/-- The inclusive integer range `[a, b]`, the index set of a C
`for (i = a; i <= b; ++i)` loop. -/
def intRange (a b : ℤ) : List ℤ := (List.range (b + 1 - a).toNat).map fun i => a + i

/-- The inner row loop of sprite drawing (lines 495-507): write the glyph at
every row of the stripe that is on screen. -/
def drawStripe (g : Char × String) (drawStartY drawEndY : ℤ) (buf : Buf) (stripe : ℤ) : Buf :=
  (intRange drawStartY drawEndY).foldl
    (fun b ypos => if 0 ≤ ypos ∧ ypos < 25 then writeCell b ypos.toNat stripe.toNat g else b)
    buf

/-- One iteration of the sprite-projection loop of `renderGame` (lines
453-510) for the sprite `sp`: skip inactive, too-far (`> 15`, squared 225)
or too-close (`< 0.1`, squared 0.01) sprites; transform to camera space;
skip non-positive depth; project and clamp the covered rows and columns;
then, per covered column, draw only if the depth is strictly below the
z-buffer entry for that column.  Integer divisions are of nonnegative
quantities, where Lean and C division agree; `-(h / 2)` is C's
`-h / 2` for `h ≥ 0`. -/
def drawSprite (sinA cosA px py : ℚ) (zbuf : ℕ → ℚ) (sp : Sprite) (buf : Buf) : Buf :=
  if sp.isActive = false ∨ sp.dist2ToPlayer > 225 ∨ sp.dist2ToPlayer < 1/100 then buf
  else
    let transformX := camLateral sinA cosA px py sp.x sp.y
    let transformY := camDepth sinA cosA px py sp.x sp.y
    if transformY ≤ 0 then buf
    else
      let spriteScreenX : ℤ := truncZ (40 * (1 + transformX / transformY))
      let spriteHeight : ℤ := |truncZ (25 / transformY)|
      let spriteWidth : ℤ := |truncZ (80 / transformY)|
      let drawStartY0 : ℤ := -(spriteHeight / 2) + 12
      let drawStartY : ℤ := if drawStartY0 < 0 then 0 else drawStartY0
      let drawEndY0 : ℤ := spriteHeight / 2 + 12
      let drawEndY : ℤ := if 25 ≤ drawEndY0 then 24 else drawEndY0
      let drawStartX0 : ℤ := -(spriteWidth / 2) + spriteScreenX
      let drawEndX0 : ℤ := drawStartX0 + spriteWidth
      let drawStartX : ℤ := if drawStartX0 < 0 then 0 else drawStartX0
      let drawEndX : ℤ := if 80 ≤ drawEndX0 then 79 else drawEndX0
      let g : Char × String := (spriteGlyph sp, sp.color)
      (intRange drawStartX drawEndX).foldl
        (fun b stripe =>
          if 0 ≤ stripe ∧ stripe < 80 ∧ transformY < zbuf stripe.toNat then
            drawStripe g drawStartY drawEndY b stripe
          else b)
        buf

/-- One iteration of the projectile-rendering loop of `renderGame` (lines
513-551) for the projectile `p`: same camera transform and per-column
z-buffer rule as sprites, at half the angular footprint, glyph `'*'`. -/
def drawProjectile (sinA cosA px py : ℚ) (zbuf : ℕ → ℚ) (p : Projectile) (buf : Buf) : Buf :=
  if p.isActive = false then buf
  else
    let transformX := camLateral sinA cosA px py p.x p.y
    let transformY := camDepth sinA cosA px py p.x p.y
    if transformY ≤ 1/100 then buf
    else
      let projScreenX : ℤ := truncZ (40 * (1 + transformX / transformY))
      let projHeight : ℤ := |truncZ (25 / (transformY * 2))|
      let projWidth : ℤ := |truncZ (80 / (transformY * 2))|
      let drawStartY0 : ℤ := -(projHeight / 2) + 12
      let drawStartY : ℤ := if drawStartY0 < 0 then 0 else drawStartY0
      let drawEndY0 : ℤ := projHeight / 2 + 12
      let drawEndY : ℤ := if 25 ≤ drawEndY0 then 24 else drawEndY0
      let drawStartX0 : ℤ := -(projWidth / 2) + projScreenX
      let drawEndX0 : ℤ := drawStartX0 + projWidth
      let drawStartX : ℤ := if drawStartX0 < 0 then 0 else drawStartX0
      let drawEndX : ℤ := if 80 ≤ drawEndX0 then 79 else drawEndX0
      (intRange drawStartX drawEndX).foldl
        (fun b stripe =>
          if 0 ≤ stripe ∧ stripe < 80 ∧ transformY < zbuf stripe.toNat then
            drawStripe ('*', ansiYellow) drawStartY drawEndY b stripe
          else b)
        buf

/-- Modelled from the spec: the tile kinds of section 3 of the spec.  The
source under src/ contains no door implementation at all (its `g_map` has no
`'D'` cell, no Door registry, no `toggleDoor`/`isPassable` function), so the
whole door component is modelled from the spec's words (sections 3 and 4.1). -/
inductive Tile
  | wall
  | floor
  | door
  | boundary
deriving DecidableEq

/-- Modelled from the spec: a Door registry entry `{gridX, gridY, isOpen}`. -/
structure Door where
  gx : ℤ
  gy : ℤ
  isOpen : Bool

/-- Modelled from the spec: a map with its door registry. -/
structure DoorWorld where
  width : ℤ
  height : ℤ
  tile : ℤ → ℤ → Tile
  doors : List Door

/-- Modelled from the spec: `tileAt(x,y)` returns the tile kind, or the
BOUNDARY sentinel for out-of-grid coordinates. -/
def tileAt (w : DoorWorld) (x y : ℤ) : Tile :=
  if 0 ≤ x ∧ x < w.width ∧ 0 ≤ y ∧ y < w.height then w.tile x y else .boundary

/-- Modelled from the spec: whether some registry entry at `(x, y)` is open. -/
def doorOpenAt (w : DoorWorld) (x y : ℤ) : Bool :=
  w.doors.any fun d => decide (d.gx = x ∧ d.gy = y ∧ d.isOpen = true)

/-- Modelled from the spec: `isPassable(x,y)` is FLOOR, or DOOR with its
registry entry open; all other kinds are impassable. -/
def isPassable (w : DoorWorld) (x y : ℤ) : Bool :=
  match tileAt w x y with
  | .floor => true
  | .door => doorOpenAt w x y
  | _ => false

/-- Modelled from the spec: `toggleDoor(x,y)` flips the matching registry
entry's `isOpen` if present; no-op otherwise. -/
def toggleDoor (w : DoorWorld) (x y : ℤ) : DoorWorld :=
  { w with doors := w.doors.map fun d =>
      if d.gx = x ∧ d.gy = y then { d with isOpen := !d.isOpen } else d }

/-- Modelled from the spec: the world of Scenario B, a closed door at (5,5)
inside an 8x8 floor. -/
def doorWorldB : DoorWorld :=
  { width := 8, height := 8,
    tile := fun x y => if x = 5 ∧ y = 5 then .door else .floor,
    doors := [⟨5, 5, false⟩] }

/-- Default sprite used with `List.getD`/`headD` when reading a slot that is
provably present. -/
def spr0 : Sprite := ⟨0, 0, 'C', "", false, 0, false, 0, 0, 0⟩

/-- An empty projectile slot. -/
def projOff : Projectile := ⟨0, 0, 0, 0, 0, false⟩

/-- The five-slot projectile pool with every slot inactive. -/
def poolOff : List Projectile := [projOff, projOff, projOff, projOff, projOff]

/-- An inactive (already collected) collectible. -/
def c2collect : Sprite := ⟨37/2, 3/2, 'C', ansiYellow, false, 0, false, 0, 0, 0⟩

/-- Enemy adjacent to the player at (2.5, 2.5), due east. -/
def c2enemyA : Sprite := ⟨7/2, 5/2, 'E', ansiRed, true, 0, true, 50, 2, 0⟩

/-- Enemy adjacent to the player at (2.5, 2.5), due south. -/
def c2enemyB : Sprite := ⟨5/2, 7/2, 'E', ansiRed, true, 0, true, 50, 2, 0⟩

/-- Enemy adjacent to the player at (2.5, 2.5), due west. -/
def c2enemyC : Sprite := ⟨3/2, 5/2, 'E', ansiRed, true, 0, true, 50, 2, 0⟩

/-- A `PLAYING` state with health 10 and three enemies in attack range with
elapsed cooldowns. -/
def c2cex : GState :=
  ⟨⟨5/2, 5/2, 0, 10, 30, 3, 5/2⟩, [c2collect, c2enemyA, c2enemyB, c2enemyC], poolOff, .playing⟩

/-- A `PLAYING` state with full health and a single attacking enemy. -/
def c2wit : GState :=
  ⟨⟨5/2, 5/2, 0, 100, 0, 3, 5/2⟩, [c2collect, c2enemyA], poolOff, .playing⟩

/-- An inactive (defeated) enemy. -/
def c5deadEnemy : Sprite := ⟨3/2, 3/2, 'E', ansiRed, false, 0, true, 0, 2, 0⟩

/-- A `PLAYING` state in which every collectible is inactive and no enemy is
active (Scenario D). -/
def c5wit : GState :=
  ⟨⟨5/2, 5/2, 0, 100, 30, 3, 5/2⟩, [c2collect, c5deadEnemy], poolOff, .playing⟩

/-- The enemy of Scenario C: health 50, in the open room at (3.5, 14.5). -/
def c6enemy : Sprite := ⟨7/2, 29/2, 'E', ansiRed, true, 0, true, 50, 2, 0⟩

/-- A projectile about to reach the Scenario C enemy. -/
def c6proj : Projectile := ⟨17/5, 29/2, 1, 0, 10, true⟩

/-- The player during Scenario C. -/
def c6playerS : PlayerS := ⟨5/2, 5/2, 0, 100, 0, 3, 5/2⟩

/-- Scenario C, first shot about to land. -/
def c6s1 : GState := ⟨c6playerS, [c6enemy], [c6proj], .playing⟩

/-- The Scenario C enemy after one 25-damage hit. -/
def c6enemyHit : Sprite := { c6enemy with health := 25 }

/-- Scenario C, second shot (a fresh projectile) about to land. -/
def c6s2 : GState := ⟨c6playerS, [c6enemyHit], [c6proj], .playing⟩

/-- The Scenario C enemy after the second hit: defeated. -/
def c6enemyDead : Sprite := { c6enemy with health := 0, isActive := false }

/-- Scenario C, a third shot fired at the already-defeated enemy. -/
def c6s3 : GState := ⟨{ c6playerS with score := 50 }, [c6enemyDead], [c6proj], .playing⟩

/-- A `PLAYING` state for the movement witness: player at (2.5, 2.5). -/
def c7wit : GState := ⟨⟨5/2, 5/2, 0, 100, 0, 3, 5/2⟩, [], poolOff, .playing⟩

/-- Sprite for the occlusion witness: 10 cells in front of a player at the
origin looking along +y. -/
def c8spr : Sprite := ⟨0, 10, 'C', ansiYellow, true, 100, false, 0, 0, 0⟩

/-- A z-buffer that holds 15 in every column. -/
def c8zbuf : ℕ → ℚ := fun _ => 15

/-- A blank frame. -/
def c8buf : Buf := fun _ _ => (' ', "")

/-- An in-flight projectile occupying pool slot 0. -/
def c9active : Projectile := ⟨1, 1, 0, 1, 10, true⟩

/-- A state whose pool has an active slot 0 and a free slot 1. -/
def c9s : GState := ⟨⟨5/2, 5/2, 0, 100, 0, 3, 5/2⟩, [], [c9active, projOff], .playing⟩

/-- A state whose pool is exhausted (every slot active). -/
def c9sFull : GState := ⟨⟨5/2, 5/2, 0, 100, 0, 3, 5/2⟩, [], [c9active, c9active], .playing⟩

/-- Slot identity between an original sprite and its updated self: the glyph
and kind are unchanged and activity can only be lost, never gained —
deactivation leaves the record in place. -/
def slotKept (a b : Sprite) : Prop :=
  a.character = b.character ∧ a.isEnemy = b.isEnemy ∧ (b.isActive = true → a.isActive = true)

/-- Slot-0 sprite for the sort counterexample: one cell from the player. -/
def c4near : Sprite := ⟨1, 0, 'C', ansiYellow, true, 0, false, 0, 0, 0⟩

/-- Slot-1 sprite for the sort counterexample: two cells from the player. -/
def c4far : Sprite := ⟨2, 0, 'E', ansiRed, true, 0, true, 50, 2, 0⟩

/-- A projectile one step away from flying into the western boundary wall. -/
def c10proj : Projectile := ⟨7/5, 29/2, -1, 0, 10, true⟩

/-- An enemy standing next to the wall cell the projectile will hit, within
0.7 of the projectile's final position. -/
def c10enemy : Sprite := ⟨6/5, 29/2, 'E', ansiRed, true, 0, true, 50, 2, 0⟩

set_option maxRecDepth 100000

set_option maxHeartbeats 2000000

/-- C1: for the player at (2.5, 2.5) and the ray pointing straight north
(direction (0, -1), the centre column), the DDA stops on the `'#'` cell
(2, 0) inside the grid, but the value stored in the z-buffer is 15 (the
maximum render distance), not the perpendicular distance 1.5 that the
source's own (unreachable) formula at lines 356-357 would produce:
`perpWallDist` is initialised to `MAX_RENDER_DISTANCE`, never assigned on an
in-grid hit, so the `perpWallDist == MAX_RENDER_DISTANCE` test at line 353
always takes the "keep the maximum" branch. -/
theorem C1_zbuffer_stores_max_not_perpendicular :
    castColumn 5 (5/2) (5/2) 0 (-1) = some ⟨1, 1, -1, 2, 0, true, 15⟩ ∧
    deadPerp 1 1 (-1) 2 0 (5/2) (5/2) 0 (-1) = 3/2 ∧ (15 : ℚ) ≠ 3/2 := by
  refine ⟨?_, ?_, by norm_num⟩
  · norm_num +decide [castColumn, truncZ, ddaLoop, castPost, mapCharZ, g_map]
  · norm_num [deadPerp]

/-- A list mapped twice under an involutive function is unchanged. -/
theorem map_invol {α : Type} (f : α → α) (h : ∀ a, f (f a) = a) (l : List α) :
    (l.map f).map f = l := by
  rw [List.map_map]
  induction l with
  | nil => rfl
  | cons a t ih => simp only [List.map_cons, Function.comp_apply, h a, ih]

/-- Flipping the registry entry at `(x, y)` is involutive on a single entry. -/
theorem doorFlip_invol (x y : ℤ) (d : Door) :
    (fun d : Door => if d.gx = x ∧ d.gy = y then { d with isOpen := !d.isOpen } else d)
      ((fun d : Door => if d.gx = x ∧ d.gy = y then { d with isOpen := !d.isOpen } else d) d)
      = d := by
  cases d with
  | mk gx gy o =>
    by_cases hxy : gx = x ∧ gy = y
    · simp [hxy]
    · simp [hxy]

/-- C3: toggling a door twice restores the whole world (registry `isOpen`
values in particular), hence `isPassable` round-trips for every cell; and
concretely (Scenario B) the closed door at (5,5) blocks `isPassable(5,5)`,
one `toggleDoor(5,5)` makes it true, and a second toggle restores blocking. -/
theorem C3_door_round_trip :
    (∀ (w : DoorWorld) (x y : ℤ), toggleDoor (toggleDoor w x y) x y = w) ∧
    (∀ (w : DoorWorld) (x y a b : ℤ),
      isPassable (toggleDoor (toggleDoor w x y) x y) a b = isPassable w a b) ∧
    isPassable doorWorldB 5 5 = false ∧
    isPassable (toggleDoor doorWorldB 5 5) 5 5 = true ∧
    isPassable (toggleDoor (toggleDoor doorWorldB 5 5) 5 5) 5 5 = false := by
  have hrt : ∀ (w : DoorWorld) (x y : ℤ), toggleDoor (toggleDoor w x y) x y = w := by
    intro w x y
    cases w with
    | mk width height tile doors =>
      simp only [toggleDoor]
      exact congrArg (DoorWorld.mk width height tile) (map_invol _ (doorFlip_invol x y) doors)
  refine ⟨hrt, fun w x y a b => by rw [hrt], ?_, ?_, ?_⟩
  · decide
  · decide
  · decide

/-- One `updateSprites` iteration changes the player's health by exactly -10
when the sprite is an attacking enemy and by nothing otherwise. -/
theorem stepSprite_health (rsqrt : ℚ → ℚ) (cps now dt px py : ℚ) (sp : Sprite) (h sc : ℤ) :
    (stepSprite rsqrt cps now dt px py sp h sc).2.1
      = h - if attackCond cps now px py sp then 10 else 0 := by
  simp only [stepSprite, attackCond, dist2]
  split_ifs <;> simp_all

/-- Over the whole sprite list, health drops by 10 per attacking enemy. -/
theorem updateSpritesList_health (rsqrt : ℚ → ℚ) (cps now dt px py : ℚ)
    (l : List Sprite) (h sc : ℤ) :
    (updateSpritesList rsqrt cps now dt px py l h sc).2.1
      = h - 10 * (countAttackers cps now px py l : ℤ) := by
  induction l generalizing h sc with
  | nil => simp [updateSpritesList, countAttackers]
  | cons sp rest ih =>
    simp only [updateSpritesList, countAttackers]
    rw [ih, stepSprite_health]
    split_ifs <;> push_cast <;> ring

/-- The function `updateProjectiles` never changes the player's health. -/
theorem updateProjectiles_health (dt : ℚ) (s : GState) :
    (updateProjectiles dt s).player.health = s.player.health := rfl

/-- In the `PLAYING` state, the health after `updateGame` is the health
before minus 10 per attacking enemy. -/
theorem updateGame_health (rsqrt : ℚ → ℚ) (cps now dt : ℚ) (s : GState)
    (hmode : s.mode = .playing) :
    (updateGame rsqrt cps now dt s).player.health
      = s.player.health - 10 * (countAttackers cps now s.player.x s.player.y s.sprites : ℤ) := by
  have hs : (updateSprites rsqrt cps now dt s).player.health
      = s.player.health - 10 * (countAttackers cps now s.player.x s.player.y s.sprites : ℤ) := by
    simp [updateSprites, updateSpritesList_health]
  simp only [updateGame, hmode, if_pos]
  split_ifs <;> simp [updateProjectiles_health, hs]

/-- Attackers are active enemies. -/
theorem countAttackers_le (cps now px py : ℚ) (l : List Sprite) :
    countAttackers cps now px py l ≤ countActiveEnemies l := by
  induction l with
  | nil => simp [countAttackers, countActiveEnemies]
  | cons sp rest ih =>
    simp only [countAttackers, countActiveEnemies]
    have : (if attackCond cps now px py sp then 1 else 0)
        ≤ (if sp.isActive = true ∧ sp.isEnemy = true then 1 else 0) := by
      by_cases hc : attackCond cps now px py sp
      · simp [hc, hc.1, hc.2.1]
      · simp [hc]
    omega

/-- C2 (amended): after one `updateGame` tick in the PLAYING state, the
player's health equals the old health minus 10 for every active enemy within
attack range whose cooldown has elapsed; consequently health stays
nonnegative whenever it is at least 10 times the number of active enemies.
(The claim as stated is false: with several simultaneous attackers and low
health, the result is negative — see the counterexample.) -/
theorem C2_health_after_tick (rsqrt : ℚ → ℚ) (cps now dt : ℚ) (s : GState)
    (hmode : s.mode = .playing) :
    (updateGame rsqrt cps now dt s).player.health
      = s.player.health - 10 * (countAttackers cps now s.player.x s.player.y s.sprites : ℤ) ∧
    (10 * (countActiveEnemies s.sprites : ℤ) ≤ s.player.health →
      0 ≤ (updateGame rsqrt cps now dt s).player.health) := by
  have hmain := updateGame_health rsqrt cps now dt s hmode
  refine ⟨hmain, fun hle => ?_⟩
  have hcnt := countAttackers_le cps now s.player.x s.player.y s.sprites
  rw [hmain]
  have hcast : (countAttackers cps now s.player.x s.player.y s.sprites : ℤ)
      ≤ (countActiveEnemies s.sprites : ℤ) := Int.ofNat_le.mpr hcnt
  omega

/-- C2 counterexample: in a PLAYING state with health 10 and three enemies
simultaneously in attack range with elapsed cooldowns, the tick drives the
player's health to -20 < 0. -/
theorem C2_cex_health_negative :
    (updateGame (fun q => q) 1 10 0 c2cex).player.health = -20 ∧
    (updateGame (fun q => q) 1 10 0 c2cex).player.health < 0 := by
  have : (updateGame (fun q => q) 1 10 0 c2cex).player.health = -20 := by
    norm_num +decide [updateGame, updateSprites, updateSpritesList, stepSprite,
      updateProjectiles, updateProjectilesList, stepProjectile, hitEnemyScan,
      activeCollectibles, enemiesAlive, dist2, solidAt, mapCharZ, g_map, truncZ,
      c2cex, c2collect, c2enemyA, c2enemyB, c2enemyC, poolOff, projOff]
  exact ⟨this, by rw [this]; norm_num⟩

/-- Witness for C2 at a concrete input: full health, one attacking enemy. -/
theorem C2_health_after_tick_witness :
    c2wit.mode = .playing ∧
    10 * (countActiveEnemies c2wit.sprites : ℤ) ≤ c2wit.player.health ∧
    0 ≤ (updateGame (fun q => q) 1 10 0 c2wit).player.health := by
  refine ⟨rfl, ?_, (C2_health_after_tick (fun q => q) 1 10 0 c2wit rfl).2 ?_⟩
  · norm_num +decide [c2wit, countActiveEnemies, c2collect, c2enemyA]
  · norm_num +decide [c2wit, countActiveEnemies, c2collect, c2enemyA]

/-- The function `updateSprites` never changes the game mode. -/
theorem updateSprites_mode (rsqrt : ℚ → ℚ) (cps now dt : ℚ) (s : GState) :
    (updateSprites rsqrt cps now dt s).mode = s.mode := rfl

/-- The function `updateProjectiles` never changes the game mode. -/
theorem updateProjectiles_mode (dt : ℚ) (s : GState) :
    (updateProjectiles dt s).mode = s.mode := rfl

/-- C5: in a PLAYING tick with positive health and a non-quit input, the
input phase never changes the state away from PLAYING (the early health
check at line 646 cannot fire), and after the simulation phase
(`updateSprites` then `updateProjectiles`) the post-tick state is GAME_OVER
exactly when the post-simulation health is ≤ 0, WIN exactly when health is
positive and no collectible and no enemy is active after this tick's
simulation (Scenario D), and a state that stays PLAYING keeps positive
health. -/
theorem C5_transitions_after_simulation (wrap rsqrt : ℚ → ℚ) (cps now dt sinA cosA : ℚ)
    (input : Char) (s : GState)
    (hmode : s.mode = .playing) (hhp : 0 < s.player.health)
    (hx1 : input ≠ 'x') (hx2 : input ≠ 'X') :
    (processInputPlaying wrap input dt sinA cosA s).mode = .playing ∧
    ((updateGame rsqrt cps now dt (processInputPlaying wrap input dt sinA cosA s)).mode
        = .gameOver ↔
      (updateProjectiles dt (updateSprites rsqrt cps now dt
        (processInputPlaying wrap input dt sinA cosA s))).player.health ≤ 0) ∧
    ((updateGame rsqrt cps now dt (processInputPlaying wrap input dt sinA cosA s)).mode
        = .win ↔
      0 < (updateProjectiles dt (updateSprites rsqrt cps now dt
        (processInputPlaying wrap input dt sinA cosA s))).player.health ∧
      activeCollectibles (updateProjectiles dt (updateSprites rsqrt cps now dt
        (processInputPlaying wrap input dt sinA cosA s))).sprites = 0 ∧
      enemiesAlive (updateProjectiles dt (updateSprites rsqrt cps now dt
        (processInputPlaying wrap input dt sinA cosA s))).sprites = false) ∧
    ((updateGame rsqrt cps now dt (processInputPlaying wrap input dt sinA cosA s)).mode
        = .playing →
      0 < (updateGame rsqrt cps now dt
        (processInputPlaying wrap input dt sinA cosA s)).player.health) := by
  have hu : (processInputPlaying wrap input dt sinA cosA s).mode = .playing := by
    simp only [processInputPlaying]
    rw [if_neg (by omega)]
    simp [hx1, hx2, hmode]
  refine ⟨hu, ?_⟩
  set u := processInputPlaying wrap input dt sinA cosA s with hudef
  set t := updateProjectiles dt (updateSprites rsqrt cps now dt u) with htdef
  have hg : updateGame rsqrt cps now dt u
      = (if t.player.health ≤ 0 then { t with mode := .gameOver }
         else if activeCollectibles t.sprites = 0 ∧ enemiesAlive t.sprites = false then
           { t with mode := .win }
         else t) := by
    simp only [updateGame, hu, if_pos, htdef]
  rw [hg]
  have htm : t.mode = .playing := by
    rw [htdef, updateProjectiles_mode, updateSprites_mode, hu]
  split_ifs with h1 h2
  · refine ⟨by simp [h1], by simp; omega, by simp⟩
  · exact ⟨by simp; omega, by simp; exact ⟨by omega, h2.1, h2.2⟩, by simp⟩
  · refine ⟨by simp [htm]; omega, ?_, fun _ => by omega⟩
    rw [htm]
    simp only [reduceCtorEq, false_iff]
    intro hcon
    exact h2 ⟨hcon.2.1, hcon.2.2⟩

/-- Witness for C5 at a concrete input: Scenario D, every collectible
inactive and no enemy active, a no-op input; the tick ends in WIN. -/
theorem C5_transitions_witness :
    c5wit.mode = .playing ∧ 0 < c5wit.player.health ∧
    (updateGame (fun q => q) 1 0 0
      (processInputPlaying (fun q => q) ' ' 0 0 1 c5wit)).mode = .win := by
  have h := C5_transitions_after_simulation (fun q => q) (fun q => q) 1 0 0 0 1 ' ' c5wit
    rfl (by norm_num [c5wit]) (by decide) (by decide)
  refine ⟨rfl, by norm_num [c5wit], h.2.2.1.mpr ?_⟩
  norm_num +decide [processInputPlaying, resolveMove, fireList, updateSprites,
    updateSpritesList, stepSprite, updateProjectiles, updateProjectilesList,
    stepProjectile, hitEnemyScan, activeCollectibles, enemiesAlive, dist2, solidAt,
    mapCharZ, g_map, truncZ, c5wit, c2collect, c5deadEnemy, poolOff, projOff]

/-- C6: Scenario C on the projectile-update step.  Before any hit the
health-50 enemy renders in the healthy band ('E').  The first 25-damage hit
leaves health 25, the enemy active and in the damaged band ('e'), the score
untouched and the projectile consumed.  The second hit drives health to 0,
deactivates the enemy and adds the 50-point kill reward.  A third shot at
the already-defeated enemy changes neither the enemy nor the score: the kill
reward is paid exactly once. -/
theorem C6_two_hits_kill_and_score_once :
    spriteGlyph c6enemy = 'E' ∧
    ((updateProjectiles (1/100) c6s1).sprites.headD spr0).health = 25 ∧
    ((updateProjectiles (1/100) c6s1).sprites.headD spr0).isActive = true ∧
    spriteGlyph ((updateProjectiles (1/100) c6s1).sprites.headD spr0) = 'e' ∧
    (updateProjectiles (1/100) c6s1).player.score = 0 ∧
    ((updateProjectiles (1/100) c6s1).projectiles.headD projOff).isActive = false ∧
    ((updateProjectiles (1/100) c6s2).sprites.headD spr0).health = 0 ∧
    ((updateProjectiles (1/100) c6s2).sprites.headD spr0).isActive = false ∧
    (updateProjectiles (1/100) c6s2).player.score = 50 ∧
    ((updateProjectiles (1/100) c6s3).sprites.headD spr0) = c6enemyDead ∧
    (updateProjectiles (1/100) c6s3).player.score = 50 := by
  refine ⟨by norm_num +decide [spriteGlyph, c6enemy], ?_⟩
  norm_num +decide [updateProjectiles, updateProjectilesList, stepProjectile,
    hitEnemyScan, dist2, solidAt, mapCharZ, g_map, truncZ, spriteGlyph,
    c6s1, c6s2, c6s3, c6enemy, c6enemyHit, c6enemyDead, c6proj, c6playerS, spr0, projOff]

/-- The collision resolution updates each axis independently: the new x is
accepted only if the cell at (trunc newX, trunc y) is inside the grid and
not a wall, the new y only if the cell at (trunc x, trunc newY) — with the
original, unmoved x — is inside the grid and not a wall. -/
theorem resolveMove_eq (x y nx ny : ℚ) :
    resolveMove x y nx ny =
      ((if ¬ solidAt (truncZ nx) (truncZ y) then nx else x),
       (if ¬ solidAt (truncZ x) (truncZ ny) then ny else y)) := by
  simp only [resolveMove, solidAt, not_or, not_lt, not_le]

/-- C7: a forward move resolves each axis independently — x moves to the
desired x only when the cell at (targetX, currentY) is in-grid and passable,
y moves only when the cell at (currentX, targetY) is, so a diagonal move
into a wall face slides along the open axis; and the resolution function
satisfies this for every desired target. -/
theorem C7_axis_independent_movement (wrap : ℚ → ℚ) (dt sinA cosA : ℚ) (s : GState)
    (hhp : 0 < s.player.health) :
    ((processInputPlaying wrap 'w' dt sinA cosA s).player.x =
       if ¬ solidAt (truncZ (s.player.x + sinA * (s.player.moveSpeed * dt))) (truncZ s.player.y)
       then s.player.x + sinA * (s.player.moveSpeed * dt) else s.player.x) ∧
    ((processInputPlaying wrap 'w' dt sinA cosA s).player.y =
       if ¬ solidAt (truncZ s.player.x) (truncZ (s.player.y + cosA * (s.player.moveSpeed * dt)))
       then s.player.y + cosA * (s.player.moveSpeed * dt) else s.player.y) ∧
    (∀ a b na nb : ℚ,
      resolveMove a b na nb =
        ((if ¬ solidAt (truncZ na) (truncZ b) then na else a),
         (if ¬ solidAt (truncZ a) (truncZ nb) then nb else b))) := by
  refine ⟨?_, ?_, fun a b na nb => resolveMove_eq a b na nb⟩ <;>
  · simp only [processInputPlaying]
    rw [if_neg (by omega)]
    try simp +decide [resolveMove_eq]

/-- Witness for C7 at a concrete input: player at (2.5, 2.5) stepping into
the open cell to the south. -/
theorem C7_axis_independent_movement_witness :
    0 < c7wit.player.health ∧
    (processInputPlaying (fun q => q) 'w' (1/3) 0 1 c7wit).player.y = 7/2 := by
  have h := C7_axis_independent_movement (fun q => q) (1/3) 0 1 c7wit (by norm_num [c7wit])
  refine ⟨by norm_num [c7wit], ?_⟩
  rw [h.2.1]
  norm_num +decide [c7wit, solidAt, mapCharZ, g_map, truncZ]

/-- If every pool slot is active, the `fireProjectile` scan changes nothing. -/
theorem fireList_all_active (px py sinA cosA : ℚ) (l : List Projectile)
    (h : ∀ p ∈ l, p.isActive = true) : fireList px py sinA cosA l = l := by
  induction l with
  | nil => rfl
  | cons p rest ih =>
    have hp := h p (by simp)
    have ihh := ih fun q hq => h q (by simp [hq])
    simp [fireList, hp, ihh]

/-- The scan fills exactly the first inactive slot. -/
theorem fireList_first_inactive (px py sinA cosA : ℚ) (l1 : List Projectile)
    (p : Projectile) (l2 : List Projectile)
    (h1 : ∀ q ∈ l1, q.isActive = true) (h2 : p.isActive = false) :
    fireList px py sinA cosA (l1 ++ p :: l2)
      = l1 ++ ⟨px, py, sinA, cosA, 10, true⟩ :: l2 := by
  induction l1 with
  | nil => simp [fireList, h2]
  | cons a t ih =>
    have ha := h1 a (by simp)
    have ihh := ih fun q hq => h1 q (by simp [hq])
    simp [fireList, ha, List.append_eq, ihh]

/-- C9: firing with an exhausted pool is a silent no-op — the whole game
state is unchanged and the (total) function returns normally; with at least
one free slot, exactly the first inactive slot is activated, at the player's
position, with the direction components derived from the player's angle and
speed 10. -/
theorem C9_fire_pool_first_free_slot (sinA cosA : ℚ) (s : GState) :
    ((∀ p ∈ s.projectiles, p.isActive = true) → fireProjectile sinA cosA s = s) ∧
    (∀ (l1 : List Projectile) (p : Projectile) (l2 : List Projectile),
      s.projectiles = l1 ++ p :: l2 → (∀ q ∈ l1, q.isActive = true) → p.isActive = false →
      fireProjectile sinA cosA s =
        { s with projectiles :=
            l1 ++ ⟨s.player.x, s.player.y, sinA, cosA, 10, true⟩ :: l2 }) := by
  constructor
  · intro h
    show { s with projectiles := fireList s.player.x s.player.y sinA cosA s.projectiles } = s
    rw [fireList_all_active _ _ _ _ _ h]
  · intro l1 p l2 hdec h1 h2
    show { s with projectiles := fireList s.player.x s.player.y sinA cosA s.projectiles } = _
    rw [hdec, fireList_first_inactive _ _ _ _ _ _ _ h1 h2]

/-- Witness for C9 at concrete inputs: an exhausted two-slot pool is left
unchanged, and a pool with slot 0 active and slot 1 free gets exactly slot 1
filled from the player's pose. -/
theorem C9_fire_pool_witness :
    (∀ p ∈ c9sFull.projectiles, p.isActive = true) ∧
    fireProjectile 0 1 c9sFull = c9sFull ∧
    (∀ q ∈ [c9active], q.isActive = true) ∧ projOff.isActive = false ∧
    fireProjectile 0 1 c9s =
      { c9s with projectiles :=
          [c9active] ++ ⟨c9s.player.x, c9s.player.y, 0, 1, 10, true⟩ :: [] } := by
  have hfull : ∀ p ∈ c9sFull.projectiles, p.isActive = true := by
    intro p hp
    simp only [c9sFull, List.mem_cons, List.not_mem_nil, or_false] at hp
    rcases hp with h | h <;> (rw [h]; rfl)
  have hone : ∀ q ∈ [c9active], q.isActive = true := by
    intro q hq
    simp only [List.mem_singleton] at hq
    rw [hq]
    rfl
  exact ⟨hfull, (C9_fire_pool_first_free_slot 0 1 c9sFull).1 hfull, hone, rfl,
    (C9_fire_pool_first_free_slot 0 1 c9s).2 [c9active] projOff [] rfl hone rfl⟩

/-- The enemy scan of `updateProjectiles` hits exactly the first qualifying
enemy: sprites before it are untouched, it takes 25 damage (deactivating it
and paying 50 points when health drops to 0 or below), and the scan stops. -/
theorem hitEnemyScan_first (projX projY : ℚ) (l1 : List Sprite) (e : Sprite)
    (l2 : List Sprite) (score : ℤ)
    (h1 : ∀ sp ∈ l1, ¬(sp.isActive = true ∧ sp.isEnemy = true ∧
      dist2 projX projY sp.x sp.y < 49/100))
    (he : e.isActive = true ∧ e.isEnemy = true ∧ dist2 projX projY e.x e.y < 49/100) :
    hitEnemyScan projX projY (l1 ++ e :: l2) score =
      (l1 ++ { e with
                health := e.health - 25,
                isActive := if e.health - 25 ≤ 0 then false else e.isActive } :: l2,
       (if e.health - 25 ≤ 0 then score + 50 else score), true) := by
  induction l1 with
  | nil => simp [hitEnemyScan, he]
  | cons a t ih =>
    have ha := h1 a (by simp)
    simp only [List.cons_append, hitEnemyScan, if_neg ha, List.append_eq]
    rw [ih fun sp hsp => h1 sp (by simp [hsp])]

/-- C10: a projectile whose advanced position lands in a solid cell is
deactivated by the wall test, yet the enemy scan still runs in the same
iteration: the first active enemy within 0.7 of the advanced position takes
the 25 damage anyway. -/
theorem C10_wall_hit_still_damages_enemy (dt : ℚ) (p : Projectile) (l1 : List Sprite)
    (e : Sprite) (l2 : List Sprite) (score : ℤ)
    (hp : p.isActive = true)
    (hwall : solidAt (truncZ (p.x + p.dirX * p.speed * dt))
      (truncZ (p.y + p.dirY * p.speed * dt)))
    (h1 : ∀ sp ∈ l1, ¬(sp.isActive = true ∧ sp.isEnemy = true ∧
      dist2 (p.x + p.dirX * p.speed * dt) (p.y + p.dirY * p.speed * dt) sp.x sp.y < 49/100))
    (he : e.isActive = true ∧ e.isEnemy = true ∧
      dist2 (p.x + p.dirX * p.speed * dt) (p.y + p.dirY * p.speed * dt) e.x e.y < 49/100) :
    (decide (solidAt (truncZ (p.x + p.dirX * p.speed * dt))
        (truncZ (p.y + p.dirY * p.speed * dt))) = true) ∧
    (stepProjectile dt p (l1 ++ e :: l2) score).1.isActive = false ∧
    (stepProjectile dt p (l1 ++ e :: l2) score).2.1 =
      l1 ++ { e with
               health := e.health - 25,
               isActive := if e.health - 25 ≤ 0 then false else e.isActive } :: l2 := by
  have hscan := hitEnemyScan_first (p.x + p.dirX * p.speed * dt)
    (p.y + p.dirY * p.speed * dt) l1 e l2 score h1 he
  refine ⟨by simpa using hwall, ?_, ?_⟩ <;>
  · simp only [stepProjectile, hp, Bool.true_eq_false, if_false, hscan]
    try simp

/-- Witness for C10 at a concrete input: a projectile flying into the
western boundary wall next to an enemy standing 0.3 away from the impact
point; the projectile dies to the wall and the enemy still loses 25 health. -/
theorem C10_wall_hit_witness :
    c10proj.isActive = true ∧
    solidAt (truncZ (c10proj.x + c10proj.dirX * c10proj.speed * (1/20)))
      (truncZ (c10proj.y + c10proj.dirY * c10proj.speed * (1/20))) ∧
    dist2 (c10proj.x + c10proj.dirX * c10proj.speed * (1/20))
      (c10proj.y + c10proj.dirY * c10proj.speed * (1/20)) c10enemy.x c10enemy.y < 49/100 ∧
    (stepProjectile (1/20) c10proj [c10enemy] 0).1.isActive = false ∧
    (stepProjectile (1/20) c10proj [c10enemy] 0).2.1 = [{ c10enemy with health := 25 }] := by
  have hw : solidAt (truncZ (c10proj.x + c10proj.dirX * c10proj.speed * (1/20)))
      (truncZ (c10proj.y + c10proj.dirY * c10proj.speed * (1/20))) := by
    norm_num +decide [c10proj, truncZ, solidAt, mapCharZ, g_map]
  have hd : dist2 (c10proj.x + c10proj.dirX * c10proj.speed * (1/20))
      (c10proj.y + c10proj.dirY * c10proj.speed * (1/20)) c10enemy.x c10enemy.y < 49/100 := by
    norm_num [c10proj, c10enemy, dist2]
  have h := C10_wall_hit_still_damages_enemy (1/20) c10proj [] c10enemy [] 0 rfl hw
    (by simp) ⟨rfl, rfl, hd⟩
  refine ⟨rfl, hw, hd, h.2.1, h.2.2.trans ?_⟩
  norm_num [c10enemy]

/-- Inserting into the descending-sorted list is a permutation of consing. -/
theorem insertDesc_perm (sp : Sprite) (l : List Sprite) :
    List.Perm (insertDesc sp l) (sp :: l) := by
  induction l with
  | nil => exact List.Perm.refl _
  | cons b rest ih =>
    simp only [insertDesc]
    split_ifs
    · exact List.Perm.refl _
    · exact (ih.cons b).trans (List.Perm.swap sp b rest)

/-- The sort model is a permutation of its input. -/
theorem sortSprites_perm (l : List Sprite) : List.Perm (sortSprites l) l := by
  induction l with
  | nil => exact List.Perm.refl _
  | cons sp rest ih => exact (insertDesc_perm sp (sortSprites rest)).trans (ih.cons sp)

/-- Insertion preserves descending order of the stored distances. -/
theorem insertDesc_sorted (sp : Sprite) (l : List Sprite)
    (h : l.Pairwise fun a b => b.dist2ToPlayer ≤ a.dist2ToPlayer) :
    (insertDesc sp l).Pairwise fun a b => b.dist2ToPlayer ≤ a.dist2ToPlayer := by
  induction l with
  | nil => simp [insertDesc]
  | cons b rest ih =>
    rw [List.pairwise_cons] at h
    simp only [insertDesc]
    split_ifs with hlt
    · refine List.Pairwise.cons ?_ (List.Pairwise.cons h.1 h.2)
      intro x hx
      rcases List.mem_cons.mp hx with hxe | hx2
      · rw [hxe]; exact le_of_lt hlt
      · exact le_trans (h.1 x hx2) (le_of_lt hlt)
    · refine List.Pairwise.cons ?_ (ih h.2)
      intro x hx
      rcases List.mem_cons.mp ((insertDesc_perm sp rest).mem_iff.mp hx) with hxe | hx2
      · rw [hxe]; exact le_of_not_lt hlt
      · exact h.1 x hx2

/-- The sorted sprite list is in descending order of the stored distances. -/
theorem sortSprites_sorted (l : List Sprite) :
    (sortSprites l).Pairwise fun a b => b.dist2ToPlayer ≤ a.dist2ToPlayer := by
  induction l with
  | nil => simp [sortSprites]
  | cons sp rest ih => exact insertDesc_sorted sp (sortSprites rest) ih

/-- Relation `slotKept` composes. -/
theorem slotKept_trans {a b c : Sprite} (h1 : slotKept a b) (h2 : slotKept b c) :
    slotKept a c :=
  ⟨h1.1.trans h2.1, h1.2.1.trans h2.2.1, fun h => h1.2.2 (h2.2.2 h)⟩

/-- Relation `Forall₂ slotKept` composes. -/
theorem forall2_slotKept_trans {l1 l2 l3 : List Sprite}
    (h12 : List.Forall₂ slotKept l1 l2) (h23 : List.Forall₂ slotKept l2 l3) :
    List.Forall₂ slotKept l1 l3 := by
  induction h12 generalizing l3 with
  | nil => cases h23; exact .nil
  | cons hab _ ih =>
    cases h23 with
    | cons hbc hrest2 => exact .cons (slotKept_trans hab hbc) (ih hrest2)

/-- One `updateSprites` iteration keeps the sprite's slot identity. -/
theorem stepSprite_slotKept (rsqrt : ℚ → ℚ) (cps now dt px py : ℚ) (sp : Sprite)
    (h sc : ℤ) : slotKept sp (stepSprite rsqrt cps now dt px py sp h sc).1 := by
  unfold stepSprite slotKept
  split_ifs <;> simp_all
  all_goals try (split_ifs <;> simp_all)

/-- The function `updateSprites` keeps every slot's identity. -/
theorem updateSpritesList_slotKept (rsqrt : ℚ → ℚ) (cps now dt px py : ℚ)
    (l : List Sprite) (h sc : ℤ) :
    List.Forall₂ slotKept l (updateSpritesList rsqrt cps now dt px py l h sc).1 := by
  induction l generalizing h sc with
  | nil => exact .nil
  | cons sp rest ih =>
    exact .cons (stepSprite_slotKept rsqrt cps now dt px py sp h sc) (ih _ _)

/-- The enemy scan of a projectile keeps every slot's identity. -/
theorem hitEnemyScan_slotKept (projX projY : ℚ) (l : List Sprite) (score : ℤ) :
    List.Forall₂ slotKept l (hitEnemyScan projX projY l score).1 := by
  induction l generalizing score with
  | nil => exact .nil
  | cons sp rest ih =>
    by_cases hhit : sp.isActive = true ∧ sp.isEnemy = true ∧
      dist2 projX projY sp.x sp.y < 49/100
    · simp only [hitEnemyScan, if_pos hhit]
      refine List.Forall₂.cons ⟨rfl, rfl, fun h => ?_⟩
        (List.forall₂_same.mpr fun a _ => ⟨rfl, rfl, fun hh => hh⟩)
      by_cases hz : sp.health - 25 ≤ 0 <;> simp_all
    · simp only [hitEnemyScan, if_neg hhit]
      exact List.Forall₂.cons ⟨rfl, rfl, fun h => h⟩ (ih score)

/-- One projectile step keeps every sprite slot's identity. -/
theorem stepProjectile_slotKept (dt : ℚ) (p : Projectile) (l : List Sprite) (score : ℤ) :
    List.Forall₂ slotKept l (stepProjectile dt p l score).2.1 := by
  unfold stepProjectile
  split_ifs
  · exact List.forall₂_same.mpr fun a _ => ⟨rfl, rfl, fun h => h⟩
  · exact hitEnemyScan_slotKept _ _ l score

/-- The whole projectile pass keeps every sprite slot's identity. -/
theorem updateProjectilesList_slotKept (dt : ℚ) (projs : List Projectile)
    (l : List Sprite) (score : ℤ) :
    List.Forall₂ slotKept l (updateProjectilesList dt projs l score).2.1 := by
  induction projs generalizing l score with
  | nil => exact List.forall₂_same.mpr fun a _ => ⟨rfl, rfl, fun h => h⟩
  | cons p rest ih =>
    exact forall2_slotKept_trans (stepProjectile_slotKept dt p l score) (ih _ _)

/-- C4 (amended): before sprite projection the entity list is sorted
farthest-to-nearest (descending stored distance, inactive entities carrying
the sentinel -1 and therefore ending last); the sort output is a permutation
of the slots; and the simulation passes (`updateSprites`,
`updateProjectiles`) keep every slot in place — same glyph, same kind, and
activity only ever lost (deactivation does not remove the slot).  (The
claim's further assertions are false on the code: C's `qsort` guarantees no
stable tie-break, and the per-frame `qsort` physically permutes
`g_sprites`, so slot indices are not preserved across the sort — see the
counterexample.) -/
theorem C4_sort_descending_and_slot_lifecycle :
    (∀ l : List Sprite,
      (sortSprites l).Pairwise fun a b => b.dist2ToPlayer ≤ a.dist2ToPlayer) ∧
    (∀ l : List Sprite, List.Perm (sortSprites l) l) ∧
    (∀ (rsqrt : ℚ → ℚ) (cps now dt : ℚ) (s : GState),
      List.Forall₂ slotKept s.sprites (updateSprites rsqrt cps now dt s).sprites) ∧
    (∀ (dt : ℚ) (s : GState),
      List.Forall₂ slotKept s.sprites (updateProjectiles dt s).sprites) :=
  ⟨sortSprites_sorted, sortSprites_perm,
   fun rsqrt cps now dt s => updateSpritesList_slotKept rsqrt cps now dt
     s.player.x s.player.y s.sprites s.player.health s.player.score,
   fun dt s => updateProjectilesList_slotKept dt s.projectiles s.sprites s.player.score⟩

/-- C4 counterexample: with a near sprite in slot 0 and a far sprite in slot
1, the render-time sort moves the far sprite into slot 0 — the per-frame
sort does invalidate slot indices. -/
theorem C4_cex_sort_invalidates_slots :
    (sortSprites (computeDistances 0 0 [c4near, c4far])).headD spr0 ≠
      (computeDistances 0 0 [c4near, c4far]).headD spr0 := by
  norm_num +decide [sortSprites, insertDesc, computeDistances, dist2,
    c4near, c4far, spr0, Sprite.mk.injEq]

/-- A left fold of buffer updates can change a cell only if one of its steps
changes that cell. -/
theorem foldl_change {α : Type} (P : ℕ → Prop) (step : Buf → α → Buf) :
    ∀ (L : List α), (∀ (b : Buf) (a : α), a ∈ L → ∀ r c, step b a r c ≠ b r c → P c) →
    ∀ (b : Buf) (r c : ℕ), (L.foldl step b) r c ≠ b r c → P c := by
  intro L
  induction L with
  | nil => intro _ b r c h; exact absurd rfl h
  | cons a t ih =>
    intro hstep b r c h
    rw [List.foldl_cons] at h
    by_cases hc : step b a r c = b r c
    · refine ih (fun b' a' ha' => hstep b' a' (List.mem_cons_of_mem a ha')) (step b a) r c ?_
      rw [← hc] at h
      exact h
    · exact hstep b a (List.mem_cons_self a t) r c hc

/-- The function `writeCell` changes no cell but its own. -/
theorem writeCell_change (b : Buf) (row col : ℕ) (g : Char × String) (r c : ℕ)
    (h : writeCell b row col g r c ≠ b r c) : r = row ∧ c = col := by
  by_cases hrc : r = row ∧ c = col
  · exact hrc
  · exact absurd (by simp [writeCell, hrc]) h

/-- A stripe draw touches only its own column. -/
theorem drawStripe_col (g : Char × String) (a bY : ℤ) (buf : Buf) (stripe : ℤ) (r c : ℕ)
    (h : drawStripe g a bY buf stripe r c ≠ buf r c) : c = stripe.toNat := by
  unfold drawStripe at h
  refine foldl_change (fun c' => c' = stripe.toNat) _ (intRange a bY) ?_ buf r c h
  intro b' yp _ r' c' hch
  by_cases hg : 0 ≤ yp ∧ yp < 25
  · rw [if_pos hg] at hch
    exact (writeCell_change b' yp.toNat stripe.toNat g r' c' hch).2
  · rw [if_neg hg] at hch
    exact absurd rfl hch

/-- C8: an entity glyph (or a projectile glyph) is written to a column only
when its camera-space depth is strictly below the z-buffer entry of that
same column — the test is part of the per-column loop body, so it gates each
covered column separately, never the sprite as a whole. -/
theorem C8_occlusion_per_column :
    (∀ (sinA cosA px py : ℚ) (zbuf : ℕ → ℚ) (sp : Sprite) (buf : Buf) (r c : ℕ),
      drawSprite sinA cosA px py zbuf sp buf r c ≠ buf r c →
      camDepth sinA cosA px py sp.x sp.y < zbuf c) ∧
    (∀ (sinA cosA px py : ℚ) (zbuf : ℕ → ℚ) (p : Projectile) (buf : Buf) (r c : ℕ),
      drawProjectile sinA cosA px py zbuf p buf r c ≠ buf r c →
      camDepth sinA cosA px py p.x p.y < zbuf c) := by
  constructor
  · intro sinA cosA px py zbuf sp buf r c h
    simp only [drawSprite] at h
    by_cases h1 : sp.isActive = false ∨ sp.dist2ToPlayer > 225 ∨ sp.dist2ToPlayer < 1/100
    · rw [if_pos h1] at h
      exact absurd rfl h
    rw [if_neg h1] at h
    by_cases h2 : camDepth sinA cosA px py sp.x sp.y ≤ 0
    · rw [if_pos h2] at h
      exact absurd rfl h
    rw [if_neg h2] at h
    refine foldl_change
      (fun c' => camDepth sinA cosA px py sp.x sp.y < zbuf c') _ _ ?_ buf r c h
    intro b' st _ r' c' hch
    by_cases hg : 0 ≤ st ∧ st < 80 ∧ camDepth sinA cosA px py sp.x sp.y < zbuf st.toNat
    · rw [if_pos hg] at hch
      rw [drawStripe_col _ _ _ _ _ _ _ hch]
      exact hg.2.2
    · rw [if_neg hg] at hch
      exact absurd rfl hch
  · intro sinA cosA px py zbuf p buf r c h
    simp only [drawProjectile] at h
    by_cases h1 : p.isActive = false
    · rw [if_pos h1] at h
      exact absurd rfl h
    rw [if_neg h1] at h
    by_cases h2 : camDepth sinA cosA px py p.x p.y ≤ 1/100
    · rw [if_pos h2] at h
      exact absurd rfl h
    rw [if_neg h2] at h
    refine foldl_change
      (fun c' => camDepth sinA cosA px py p.x p.y < zbuf c') _ _ ?_ buf r c h
    intro b' st _ r' c' hch
    by_cases hg : 0 ≤ st ∧ st < 80 ∧ camDepth sinA cosA px py p.x p.y < zbuf st.toNat
    · rw [if_pos hg] at hch
      rw [drawStripe_col _ _ _ _ _ _ _ hch]
      exact hg.2.2
    · rw [if_neg hg] at hch
      exact absurd rfl hch

/-- Witness for C8 at a concrete input: a collectible 10 cells ahead of the
camera against walls at depth 15 gets its glyph written at (row 12, column
40), and the theorem then gives 10 < 15 for that column. -/
theorem C8_occlusion_witness :
    drawSprite 0 1 0 0 c8zbuf c8spr c8buf 12 40 ≠ c8buf 12 40 ∧
    camDepth 0 1 0 0 c8spr.x c8spr.y < c8zbuf 40 := by
  have hne : drawSprite 0 1 0 0 c8zbuf c8spr c8buf 12 40 ≠ c8buf 12 40 := by
    have hrange : intRange 36 44 = [36, 37, 38, 39, 40, 41, 42, 43, 44] := by decide
    have hr2 : intRange 11 13 = [11, 12, 13] := by decide
    norm_num +decide [drawSprite, camLateral, camDepth, truncZ, drawStripe, writeCell,
      spriteGlyph, c8spr, c8zbuf, c8buf, hrange, hr2, ansiYellow]
  exact ⟨hne, C8_occlusion_per_column.1 0 1 0 0 c8zbuf c8spr c8buf 12 40 hne⟩

/-- In the DDA loop as written, the threaded `perpWallDist` never leaves the
value 15: it enters as 15, the out-of-bounds branch re-assigns the same
constant, and no other branch writes it. -/
theorem ddaLoop_pw_const (d1 d2 : ℚ) (sx sy : ℤ) :
    ∀ (fuel : ℕ) (sdx sdy : ℚ) (mX mY : ℤ) (r : ℕ × ℤ × ℤ × Bool × ℚ),
      ddaLoop d1 d2 sx sy fuel sdx sdy mX mY 15 = some r → r.2.2.2.2 = 15 := by
  intro fuel
  induction fuel with
  | zero =>
    intro sdx sdy mX mY r h
    exact absurd h (by simp [ddaLoop])
  | succ n ih =>
    intro sdx sdy mX mY r h
    rw [ddaLoop] at h
    dsimp only at h
    split_ifs at h <;> first | (cases h; rfl) | exact ih _ _ _ _ r h

/-- Consequence: whenever the cast finishes, the value recorded in the
z-buffer is exactly the maximum render distance 15, whatever the ray — the
perpendicular-distance formula can never contribute. -/
theorem castColumn_z_const (fuel : ℕ) (posX posY rdx rdy : ℚ) (r : RayHit)
    (h : castColumn fuel posX posY rdx rdy = some r) : r.z = 15 := by
  simp only [castColumn] at h
  rcases Option.map_eq_some'.mp h with ⟨t, ht, hf⟩
  have hpw := ddaLoop_pw_const _ _ _ _ fuel _ _ _ _ t ht
  rw [← hf]
  simp only [castPost, hpw, if_pos]
  norm_num
